import Mathlib

/-!
Verification of the NanoTemp temperature-dashboard core (src/main.py).

The core under specification is the data ingestion and normalization
pipeline: `format_timestamp` (lines 54-58), the shaping step of
`fetch_temperature_data` (lines 67-83), `filter_data_by_datetime_range`
(lines 97-103), and the latest-sample display in `main` (lines 149-154).

Embedding conventions:
* The remote store snapshot `ref.get()` is a parameter: `none` models a
  Python `None` result, `some raw` models a dict, given as its association
  list of (key, value) items (keys unique, arbitrary iteration order).
* Temperature values are passed through unchanged, so they are a type
  parameter `α`.
* The pandas `Timestamp` column holds a UTC datetime built from the integer
  epoch second count; datetimes compare identically to their epoch seconds,
  so a `Sample` carries the epoch second count as an `Int` together with the
  formatted string and the temperature.
* Python exceptions escaping the pipeline are modelled by `Except`:
  `int(x[0])` raising `ValueError` on a malformed key becomes
  `Except.error NormError.malformedKey`.
-/

namespace NanoTemp

/-- Model of Python `int(s)` for a string key: an optional sign followed by
one or more ASCII decimal digits, evaluated in base 10 (leading zeros
allowed, so "09" parses to 9). Python `int` additionally strips surrounding
whitespace and accepts underscore digit separators and non-ASCII digits;
those key forms are conservatively rejected here. Returns `none` when the
string is not of this form, modelling the `ValueError` raised by `int`. -/
def parseInt (s : String) : Option Int :=
  let digitsVal : List Char → Option Nat := fun cs =>
    if cs = [] ∨ ¬ cs.all Char.isDigit then none
    else some (cs.foldl (fun acc c => acc * 10 + (c.toNat - 48)) 0)
  match s.toList with
  | '-' :: rest => (digitsVal rest).map (fun n => -(n : Int))
  | '+' :: rest => (digitsVal rest).map (fun n => (n : Int))
  | cs => (digitsVal cs).map (fun n => (n : Int))

/-- Character for a single decimal digit value. -/
def digitChar (n : Nat) : Char := Char.ofNat (48 + n % 10)

/-- Zero-padded two-digit rendering, as produced by strftime `%H`, `%M`,
`%S`, `%d`, `%m` for their in-range values (0..99). -/
def pad2 (n : Int) : String :=
  let k := n.toNat
  String.mk [digitChar (k / 10), digitChar (k % 10)]

/-- Zero-padded four-digit rendering, as produced by strftime `%Y` for the
years 1..9999 that `datetime` can represent. -/
def pad4 (n : Int) : String :=
  let k := n.toNat
  String.mk [digitChar (k / 1000), digitChar (k / 100 % 10),
             digitChar (k / 10 % 10), digitChar (k % 10)]

/-- Proleptic-Gregorian civil date (year, month, day) of a day count
relative to 1970-01-01, the calendar used by `datetime` in UTC. Standard
days-to-civil algorithm; all divisions have positive divisors, where `Int`
division is floor division, matching Python. -/
def civilFromDays (z0 : Int) : Int × Int × Int :=
  let z := z0 + 719468
  let era := z / 146097
  let doe := z - era * 146097
  let yoe := (doe - doe / 1460 + doe / 36524 - doe / 146096) / 365
  let y := yoe + era * 400
  let doy := doe - (365 * yoe + yoe / 4 - yoe / 100)
  let mp := (5 * doy + 2) / 153
  let d := doy - (153 * mp + 2) / 5 + 1
  let m := mp + (if mp < 10 then 3 else -9)
  (y + (if m ≤ 2 then 1 else 0), m, d)

/-- Model of `format_timestamp` (src/main.py lines 54-58): convert an epoch
second count to the UTC rendering `strftime("%H:%M:%S %d/%m/%Y")` of
`datetime.fromtimestamp(·, tz=timezone.utc)`. The source takes the raw key
string and re-parses it with `int`; the model takes the already-parsed
integer (the same integer the sort key uses). `datetime.fromtimestamp`
raises ValueError or OverflowError whenever the instant falls outside the
representable year range MINYEAR..MAXYEAR = 1..9999 (epoch seconds
-62135596800..253402300799); that error path is modelled by `none`. -/
def format_timestamp (unix_timestamp : Int) : Option String :=
  let days := unix_timestamp / 86400
  let sod := unix_timestamp % 86400
  let ymd := civilFromDays days
  if ymd.1 < 1 ∨ 9999 < ymd.1 then none
  else
    let hh := sod / 3600
    let mm := sod % 3600 / 60
    let ss := sod % 60
    some (pad2 hh ++ ":" ++ pad2 mm ++ ":" ++ pad2 ss ++ " " ++
      pad2 ymd.2.2 ++ "/" ++ pad2 ymd.2.1 ++ "/" ++ pad4 ymd.1)

/-- One normalized record, a row of the DataFrame built in
`fetch_temperature_data` (src/main.py lines 76-80): the `Timestamp` column
(as its epoch second count), the `FormattedTime` column, and the
`Temperature` column. -/
structure Sample (α : Type) where
  timestamp : Int
  formattedTime : String
  temperature : α
deriving DecidableEq, Repr

/-- Errors escaping the shaping step: `int(x[0])` raised `ValueError` on a
timestamp key (the MalformedKey condition of the spec), or
`datetime.fromtimestamp` raised ValueError/OverflowError because the parsed
instant falls outside years 1..9999. -/
inductive NormError where
  | malformedKey
  | timestampOutOfRange
deriving DecidableEq, Repr

instance {ε α : Type} [DecidableEq ε] [DecidableEq α] : DecidableEq (Except ε α)
  | .error a, .error b =>
    if h : a = b then .isTrue (congrArg Except.error h)
    else .isFalse (fun hc => h (Except.error.inj hc))
  | .error _, .ok _ => .isFalse (fun hc => Except.noConfusion hc)
  | .ok _, .error _ => .isFalse (fun hc => Except.noConfusion hc)
  | .ok a, .ok b =>
    if h : a = b then .isTrue (congrArg Except.ok h)
    else .isFalse (fun hc => h (Except.ok.inj hc))

/-- Parse every timestamp key of the snapshot, in iteration order, as
`sorted`'s key function `lambda x: int(x[0])` does (src/main.py line 74);
the first malformed key aborts the whole batch with `ValueError`, before
any row is built. -/
def parseEntries {α : Type} : List (String × α) → Except NormError (List (Int × α))
  | [] => .ok []
  | (k, v) :: rest =>
    match parseInt k with
    | none => .error .malformedKey
    | some i =>
      match parseEntries rest with
      | .error e => .error e
      | .ok tl => .ok ((i, v) :: tl)

/-- Insert an entry into a list sorted ascending on the integer key, before
the first entry whose key is not smaller — so before entries of equal key,
which keeps the sort below stable, as Python's `sorted` is. -/
def insertByKey {α : Type} (x : Int × α) : List (Int × α) → List (Int × α)
  | [] => [x]
  | y :: ys => if y.1 < x.1 then y :: insertByKey x ys else x :: y :: ys

/-- The sort of `sorted(temp_data.items(), key=lambda x: int(x[0]))`
(src/main.py line 74): stable sort ascending on the parsed integer key. -/
def sortEntries {α : Type} : List (Int × α) → List (Int × α)
  | [] => []
  | x :: xs => insertByKey x (sortEntries xs)

/-- The row-building loop of `fetch_temperature_data` (src/main.py lines
74-80): walk the sorted entries in order; `format_timestamp` raising on an
out-of-range instant aborts the loop at that entry, before any later row is
built. -/
def buildRows {α : Type} : List (Int × α) → Except NormError (List (Sample α))
  | [] => .ok []
  | (i, v) :: rest =>
    match format_timestamp i with
    | none => .error .timestampOutOfRange
    | some text =>
      match buildRows rest with
      | .error e => .error e
      | .ok tl =>
        .ok ({ timestamp := i, formattedTime := text, temperature := v } :: tl)

/-- The shaping step of `fetch_temperature_data` (src/main.py lines 73-82):
parse all keys (done first, inside the key function of `sorted`), sort by
parsed integer key ascending, then build one row per entry with the
formatted time and the unchanged temperature. -/
def normalize {α : Type} (raw : List (String × α)) :
    Except NormError (List (Sample α)) :=
  match parseEntries raw with
  | .error e => .error e
  | .ok parsed => buildRows (sortEntries parsed)

/-- Model of `fetch_temperature_data` (src/main.py lines 67-83) given the
store snapshot: `if temp_data:` is falsy for `None` and for an empty dict,
in which case the function returns `None`; otherwise it returns the shaped
DataFrame. -/
def fetch_temperature_data {α : Type} (store : Option (List (String × α))) :
    Except NormError (Option (List (Sample α))) :=
  match store with
  | some raw =>
      if raw.isEmpty then .ok none
      else
        match normalize raw with
        | .error e => .error e
        | .ok out => .ok (some out)
  | none => .ok none

/-- Model of `filter_data_by_datetime_range` (src/main.py lines 97-103)
after the caller's dates and times have been combined into the two absolute
UTC instants `start_datetime` and `end_datetime` (both as epoch seconds):
keep the rows with `start_datetime <= Timestamp <= end_datetime`. -/
def filter_data_by_datetime_range {α : Type} (samples : List (Sample α))
    (start_datetime end_datetime : Int) : List (Sample α) :=
  samples.filter fun r =>
    decide (start_datetime ≤ r.timestamp) && decide (r.timestamp ≤ end_datetime)

/-- The latest-sample display of `main` (src/main.py lines 149-154): when
`df` is not `None`, read `df.iloc[-1]["Temperature"]` and
`df.iloc[-1]["FormattedTime"]` (the last row); when `df` is `None`, the
data display is skipped entirely. (`iloc[-1]` on a `None`-free empty frame
would raise, but `fetch_temperature_data` never returns an empty frame.) -/
def latest_display {α : Type} (df : Option (List (Sample α))) :
    Option (α × String) :=
  match df with
  | none => none
  | some samples =>
      match samples.getLast? with
      | none => none
      | some r => some (r.temperature, r.formattedTime)

/-! Helper lemmas about the sort, the key parsing pass, and the filter. -/

theorem insertByKey_perm {α : Type} (x : Int × α) (l : List (Int × α)) :
    (insertByKey x l).Perm (x :: l) := by
  induction l with
  | nil => exact List.Perm.refl _
  | cons y ys ih =>
    by_cases h : y.1 < x.1
    · simp only [insertByKey, if_pos h]
      exact (ih.cons y).trans (List.Perm.swap x y ys)
    · simp only [insertByKey, if_neg h]
      exact List.Perm.refl _

theorem sortEntries_perm {α : Type} (l : List (Int × α)) :
    (sortEntries l).Perm l := by
  induction l with
  | nil => exact List.Perm.refl _
  | cons x xs ih => exact (insertByKey_perm x (sortEntries xs)).trans (ih.cons x)

theorem insertByKey_pairwise {α : Type} (x : Int × α) (l : List (Int × α))
    (h : l.Pairwise fun a b => a.1 ≤ b.1) :
    (insertByKey x l).Pairwise fun a b => a.1 ≤ b.1 := by
  induction l with
  | nil => simp [insertByKey]
  | cons y ys ih =>
    rcases List.pairwise_cons.mp h with ⟨hy, hys⟩
    by_cases hlt : y.1 < x.1
    · simp only [insertByKey, if_pos hlt]
      refine List.pairwise_cons.mpr ⟨?_, ih hys⟩
      intro b hb
      rcases List.mem_cons.mp ((insertByKey_perm x ys).subset hb) with rfl | hb'
      · exact le_of_lt hlt
      · exact hy b hb'
    · simp only [insertByKey, if_neg hlt]
      have hxy : x.1 ≤ y.1 := le_of_not_lt hlt
      refine List.pairwise_cons.mpr ⟨?_, h⟩
      intro b hb
      rcases List.mem_cons.mp hb with rfl | hb'
      · exact hxy
      · exact le_trans hxy (hy b hb')

theorem sortEntries_pairwise {α : Type} (l : List (Int × α)) :
    (sortEntries l).Pairwise fun a b => a.1 ≤ b.1 := by
  induction l with
  | nil => simp [sortEntries]
  | cons x xs ih => exact insertByKey_pairwise x (sortEntries xs) ih

theorem parseEntries_ok_of_parse {α : Type} (raw : List (String × α))
    (hp : ∀ kv ∈ raw, (parseInt kv.1).isSome) :
    parseEntries raw =
      .ok (raw.filterMap fun kv => (parseInt kv.1).map fun i => (i, kv.2)) := by
  induction raw with
  | nil => rfl
  | cons kv rest ih =>
    have hhd : (parseInt kv.1).isSome := hp kv (List.mem_cons_self kv rest)
    rcases Option.isSome_iff_exists.mp hhd with ⟨i, hi⟩
    have htl := ih fun kv' h' => hp kv' (List.mem_cons_of_mem kv h')
    simp only [parseEntries, hi, htl, List.filterMap_cons, Option.map_some']

theorem parseEntries_error {α : Type} (raw : List (String × α)) (k : String)
    (v : α) (hk : (k, v) ∈ raw) (hnone : parseInt k = none) :
    parseEntries raw = .error .malformedKey := by
  induction raw with
  | nil => cases hk
  | cons kv rest ih =>
    rcases List.mem_cons.mp hk with rfl | hk'
    · simp only [parseEntries, hnone]
    · match hkv : parseInt kv.1 with
      | none => simp only [parseEntries, hkv]
      | some i => simp only [parseEntries, hkv, ih hk']

theorem parseEntries_ok_length {α : Type} (raw : List (String × α))
    (parsed : List (Int × α)) (h : parseEntries raw = .ok parsed) :
    parsed.length = raw.length := by
  induction raw generalizing parsed with
  | nil => cases h; rfl
  | cons kv rest ih =>
    match hk : parseInt kv.1 with
    | none => simp only [parseEntries, hk] at h; cases h
    | some i =>
      simp only [parseEntries, hk] at h
      match hr : parseEntries rest with
      | .error e => rw [hr] at h; cases h
      | .ok tl =>
        rw [hr] at h
        cases h
        simp [ih tl hr]

theorem buildRows_ok_eq {α : Type} (l : List (Int × α))
    (out : List (Sample α)) (h : buildRows l = .ok out) :
    out = l.map fun p =>
      { timestamp := p.1, formattedTime := (format_timestamp p.1).getD "",
        temperature := p.2 } := by
  induction l generalizing out with
  | nil => cases h; rfl
  | cons p rest ih =>
    match hf : format_timestamp p.1 with
    | none => simp only [buildRows, hf] at h; cases h
    | some text =>
      simp only [buildRows, hf] at h
      match hbr : buildRows rest with
      | .error e => rw [hbr] at h; cases h
      | .ok tl =>
        rw [hbr] at h
        cases h
        rw [List.map_cons, ← ih tl hbr]
        simp [hf]

theorem buildRows_ok_of_isSome {α : Type} (l : List (Int × α))
    (h : ∀ p ∈ l, (format_timestamp p.1).isSome) :
    buildRows l = .ok (l.map fun p =>
      { timestamp := p.1, formattedTime := (format_timestamp p.1).getD "",
        temperature := p.2 }) := by
  induction l with
  | nil => rfl
  | cons p rest ih =>
    rcases Option.isSome_iff_exists.mp (h p (List.mem_cons_self p rest)) with
      ⟨text, hf⟩
    have htl := ih fun q hq => h q (List.mem_cons_of_mem p hq)
    simp only [buildRows, hf, htl, List.map_cons]
    simp [hf]

theorem buildRows_ok_formatted {α : Type} (l : List (Int × α))
    (out : List (Sample α)) (h : buildRows l = .ok out) :
    ∀ s ∈ out, format_timestamp s.timestamp = some s.formattedTime := by
  induction l generalizing out with
  | nil =>
    cases h
    intro s hs
    cases hs
  | cons p rest ih =>
    intro s hs
    match hf : format_timestamp p.1 with
    | none => simp only [buildRows, hf] at h; cases h
    | some text =>
      simp only [buildRows, hf] at h
      match hbr : buildRows rest with
      | .error e => rw [hbr] at h; cases h
      | .ok tl =>
        rw [hbr] at h
        cases h
        rcases List.mem_cons.mp hs with rfl | hs'
        · exact hf
        · exact ih tl hbr s hs'

theorem parse_isSome_of_bind {α : Type} (raw : List (String × α))
    (hb : ∀ kv ∈ raw, ((parseInt kv.1).bind format_timestamp).isSome) :
    ∀ kv ∈ raw, (parseInt kv.1).isSome := by
  intro kv hkv
  have hkb := hb kv hkv
  match hpi : parseInt kv.1 with
  | none => simp [hpi] at hkb
  | some i => rfl

theorem parsed_mem_format_isSome {α : Type} (raw : List (String × α))
    (hb : ∀ kv ∈ raw, ((parseInt kv.1).bind format_timestamp).isSome) :
    ∀ p ∈ (raw.filterMap fun kv => (parseInt kv.1).map fun i => (i, kv.2)),
      (format_timestamp p.1).isSome := by
  intro p hp
  rcases List.mem_filterMap.mp hp with ⟨kv, hkv, hsome⟩
  have hkb := hb kv hkv
  match hpi : parseInt kv.1 with
  | none => rw [hpi] at hsome; cases hsome
  | some i =>
    rw [hpi] at hsome
    simp only [Option.map_some'] at hsome
    cases hsome
    rw [hpi] at hkb
    simpa using hkb

theorem normalize_eq_of_ok {α : Type} (raw : List (String × α))
    (hb : ∀ kv ∈ raw, ((parseInt kv.1).bind format_timestamp).isSome) :
    normalize raw = .ok ((sortEntries (raw.filterMap fun kv =>
        (parseInt kv.1).map fun i => (i, kv.2))).map fun p =>
      { timestamp := p.1, formattedTime := (format_timestamp p.1).getD "",
        temperature := p.2 }) := by
  simp only [normalize,
    parseEntries_ok_of_parse raw (parse_isSome_of_bind raw hb)]
  exact buildRows_ok_of_isSome _ fun p hp =>
    parsed_mem_format_isSome raw hb p ((sortEntries_perm _).subset hp)

theorem normalize_ok_cases {α : Type} (raw : List (String × α))
    (out : List (Sample α)) (h : normalize raw = .ok out) :
    ∃ parsed, parseEntries raw = .ok parsed ∧
      buildRows (sortEntries parsed) = .ok out := by
  match hpe : parseEntries raw with
  | .error e => rw [normalize, hpe] at h; cases h
  | .ok parsed => rw [normalize, hpe] at h; exact ⟨parsed, rfl, h⟩

theorem normalize_ok_pairwise {α : Type} (raw : List (String × α))
    (out : List (Sample α)) (h : normalize raw = .ok out) :
    out.Pairwise fun a b => a.timestamp ≤ b.timestamp := by
  rcases normalize_ok_cases raw out h with ⟨parsed, _, hbr⟩
  rw [buildRows_ok_eq _ _ hbr]
  exact List.pairwise_map.mpr (sortEntries_pairwise parsed)

theorem normalize_ok_length {α : Type} (raw : List (String × α))
    (out : List (Sample α)) (h : normalize raw = .ok out) :
    out.length = raw.length := by
  rcases normalize_ok_cases raw out h with ⟨parsed, hpe, hbr⟩
  rw [buildRows_ok_eq _ _ hbr, List.length_map,
    (sortEntries_perm parsed).length_eq, parseEntries_ok_length raw parsed hpe]

theorem normalize_ok_entries_perm {α : Type} (raw : List (String × α))
    (out : List (Sample α)) (parsed : List (Int × α))
    (hpe : parseEntries raw = .ok parsed) (h : normalize raw = .ok out) :
    (out.map fun s => (s.timestamp, s.temperature)).Perm parsed := by
  rcases normalize_ok_cases raw out h with ⟨parsed', hpe', hbr⟩
  rw [hpe] at hpe'
  cases hpe'
  rw [buildRows_ok_eq _ _ hbr, List.map_map]
  have hcomp : ((fun s : Sample α => (s.timestamp, s.temperature)) ∘
      fun p : Int × α =>
      ({ timestamp := p.1, formattedTime := (format_timestamp p.1).getD "",
         temperature := p.2 } : Sample α)) = id := by
    funext p; rfl
  rw [hcomp, List.map_id]
  exact sortEntries_perm parsed

theorem pairwise_le_getLast {α : Type} (l : List (Sample α)) (last : Sample α)
    (h : l.Pairwise fun a b => a.timestamp ≤ b.timestamp)
    (hlast : l.getLast? = some last) :
    ∀ s ∈ l, s.timestamp ≤ last.timestamp := by
  induction l with
  | nil => cases hlast
  | cons x xs ih =>
    rcases List.pairwise_cons.mp h with ⟨hx, hxs⟩
    intro s hs
    match xs, hlast with
    | [], hlast =>
      cases hlast
      rcases List.mem_singleton.mp hs with rfl
      exact le_refl _
    | y :: ys, hlast =>
      rw [List.getLast?_cons_cons] at hlast
      have hmem : last ∈ y :: ys := by
        rcases List.getLast?_eq_some_iff.mp hlast with ⟨zs, hz⟩
        rw [hz]; simp
      rcases List.mem_cons.mp hs with rfl | hs'
      · exact hx last hmem
      · exact ih hxs hlast s hs'

theorem filter_le_eq_takeWhile {α : Type} (l : List (Sample α)) (e : Int)
    (h : l.Pairwise fun a b => a.timestamp ≤ b.timestamp) :
    l.filter (fun r => decide (r.timestamp ≤ e)) =
      l.takeWhile fun r => decide (r.timestamp ≤ e) := by
  induction l with
  | nil => rfl
  | cons x xs ih =>
    rcases List.pairwise_cons.mp h with ⟨hx, hxs⟩
    by_cases hxe : x.timestamp ≤ e
    · simp only [List.filter_cons, List.takeWhile_cons, hxe, decide_True, if_true]
      rw [ih hxs]
    · simp only [List.filter_cons, List.takeWhile_cons, hxe, decide_False, if_false]
      exact List.filter_eq_nil_iff.mpr fun y hy => by
        simp only [decide_eq_true_eq]
        exact fun hye => hxe (le_trans (hx y hy) hye)

theorem filter_range_eq_drop_take {α : Type} (samples : List (Sample α))
    (s e : Int) (h : samples.Pairwise fun a b => a.timestamp ≤ b.timestamp) :
    filter_data_by_datetime_range samples s e =
      (samples.dropWhile fun r => decide (r.timestamp < s)).takeWhile fun r =>
        decide (r.timestamp ≤ e) := by
  induction samples with
  | nil => rfl
  | cons x xs ih =>
    rcases List.pairwise_cons.mp h with ⟨hx, hxs⟩
    simp only [filter_data_by_datetime_range] at ih ⊢
    rw [List.filter_cons, List.dropWhile_cons]
    by_cases hlt : x.timestamp < s
    · rw [if_neg (show ¬ (decide (s ≤ x.timestamp) &&
              decide (x.timestamp ≤ e)) = true by simp [not_le_of_lt hlt]),
          if_pos (show decide (x.timestamp < s) = true by simp [hlt])]
      exact ih hxs
    · have hsx : s ≤ x.timestamp := le_of_not_lt hlt
      have hrest : ∀ y ∈ xs, s ≤ y.timestamp :=
        fun y hy => le_trans hsx (hx y hy)
      rw [if_neg (show ¬ decide (x.timestamp < s) = true by simp [hlt]),
          List.takeWhile_cons]
      by_cases hxe : x.timestamp ≤ e
      · rw [if_pos (show (decide (s ≤ x.timestamp) &&
              decide (x.timestamp ≤ e)) = true by simp [hsx, hxe]),
            if_pos (show decide (x.timestamp ≤ e) = true by simp [hxe])]
        have hcongr : List.filter (fun r =>
            decide (s ≤ r.timestamp) && decide (r.timestamp ≤ e)) xs =
            List.filter (fun r => decide (r.timestamp ≤ e)) xs :=
          List.filter_congr fun y hy => by simp [hrest y hy]
        rw [hcongr, filter_le_eq_takeWhile xs e hxs]
      · rw [if_neg (show ¬ (decide (s ≤ x.timestamp) &&
              decide (x.timestamp ≤ e)) = true by simp [hxe]),
            if_neg (show ¬ decide (x.timestamp ≤ e) = true by simp [hxe])]
        exact List.filter_eq_nil_iff.mpr fun y hy => by
          simp only [Bool.and_eq_true, decide_eq_true_eq, not_and]
          exact fun _ hye => hxe (le_trans (hx y hy) hye)

theorem parsed_map_fst {α : Type} (raw : List (String × α)) :
    ((raw.filterMap fun kv => (parseInt kv.1).map fun i => (i, kv.2)).map
        Prod.fst) = raw.filterMap fun kv => parseInt kv.1 := by
  induction raw with
  | nil => rfl
  | cons kv rest ih =>
    match hkv : parseInt kv.1 with
    | none => simp [List.filterMap_cons, hkv, ih]
    | some i => simp [List.filterMap_cons, hkv, ih]

/-! The claims. -/

/-- C1 counterexample: the key "253402300800" is integer-parseable (one
second past 9999-12-31 23:59:59 UTC), yet the program raises from
`datetime.fromtimestamp` instead of returning a one-Sample sequence, so
normalize does not return N Samples for every N-key integer-parseable
mapping. -/
theorem claim1_out_of_range_counterexample :
    parseInt "253402300800" = some 253402300800 ∧
      normalize [("253402300800", (1 : Int))] =
        .error .timestampOutOfRange :=
  ⟨by decide, by decide⟩

/-- C1 (amended): for every input mapping with unique integer-parseable
string keys whose parsed instants datetime can represent (years 1..9999),
normalize returns exactly one Sample per entry, and the sequence of
instants is the multiset of parsed key values arranged non-decreasingly —
that is, the relative order matches ascending numeric value of the
original timestamp-keys, not lexicographic string order. -/
theorem claim1_normalize_ordering {α : Type} (raw : List (String × α))
    (_huniq : (raw.map Prod.fst).Nodup)
    (hb : ∀ kv ∈ raw, ((parseInt kv.1).bind format_timestamp).isSome) :
    ∃ out, normalize raw = .ok out ∧ out.length = raw.length ∧
      out.Pairwise (fun a b => a.timestamp ≤ b.timestamp) ∧
      (out.map fun s => s.timestamp).Perm
        (raw.filterMap fun kv => parseInt kv.1) := by
  have hn := normalize_eq_of_ok raw hb
  refine ⟨_, hn, normalize_ok_length raw _ hn,
    normalize_ok_pairwise raw _ hn, ?_⟩
  rw [List.map_map]
  have hcomp : ((fun s : Sample α => s.timestamp) ∘ fun p : Int × α =>
      ({ timestamp := p.1, formattedTime := (format_timestamp p.1).getD "",
         temperature := p.2 } : Sample α)) = Prod.fst := by
    funext p; rfl
  rw [hcomp, ← parsed_map_fst raw]
  exact (sortEntries_perm _).map Prod.fst

theorem claim1_normalize_ordering_witness :
    (∃ out, normalize [("9", (1 : Int)), ("10", 2)] = .ok out ∧
        out.length = ([("9", (1 : Int)), ("10", 2)]).length ∧
        out.Pairwise (fun a b => a.timestamp ≤ b.timestamp) ∧
        (out.map fun s => s.timestamp).Perm
          ([("9", (1 : Int)), ("10", 2)].filterMap fun kv => parseInt kv.1)) ∧
      normalize [("9", (1 : Int)), ("10", 2)] =
        .ok [⟨9, "00:00:09 01/01/1970", 1⟩, ⟨10, "00:00:10 01/01/1970", 2⟩] :=
  ⟨claim1_normalize_ordering [("9", (1 : Int)), ("10", 2)] (by decide)
    (by decide), by decide⟩

/-- C2 counterexample: on the empty mapping the code returns the None
sentinel (`if temp_data:` is falsy, src/main.py lines 72 and 83), which is
not the empty sequence of Samples the claim promises. -/
theorem claim2_empty_counterexample :
    fetch_temperature_data (some ([] : List (String × Int))) = .ok none ∧
      fetch_temperature_data (some ([] : List (String × Int))) ≠
        .ok (some ([] : List (Sample Int))) :=
  ⟨by decide, by decide⟩

/-- C2 (amended): if the input mapping is empty or absent,
fetch_temperature_data returns the None sentinel rather than an empty
sequence, raising no error, and the downstream display treats None as no
data available, rendering nothing. -/
theorem claim2_empty_amended :
    fetch_temperature_data (none : Option (List (String × Int))) = .ok none ∧
      fetch_temperature_data (some ([] : List (String × Int))) = .ok none ∧
      latest_display (none : Option (List (Sample Int))) = none :=
  ⟨rfl, rfl, rfl⟩

/-- C3: a timestamp-key that does not parse as an integer makes normalize
fail with MalformedKey, and the failure propagates through
fetch_temperature_data to the caller: the whole batch is aborted and no
output sequence at all is produced. -/
theorem claim3_malformed_key {α : Type} (raw : List (String × α)) (k : String)
    (v : α) (hk : (k, v) ∈ raw) (hnone : parseInt k = none) :
    normalize raw = .error .malformedKey ∧
      fetch_temperature_data (some raw) = .error .malformedKey := by
  have h1 : normalize raw = .error .malformedKey := by
    rw [normalize, parseEntries_error raw k v hk hnone]
  have hne : raw.isEmpty = false := by
    cases raw
    · cases hk
    · rfl
  exact ⟨h1, by simp [fetch_temperature_data, hne, h1]⟩

theorem claim3_malformed_key_witness :
    normalize [("abc", (5 : Int))] = .error .malformedKey ∧
      fetch_temperature_data (some [("abc", (5 : Int))]) =
        .error .malformedKey :=
  claim3_malformed_key [("abc", (5 : Int))] "abc" 5 (by decide) (by decide)

/-- C4: filter_data_by_datetime_range keeps exactly the samples whose
instant lies in the closed interval, inclusive on both ends, and on a
sorted sequence the result is the maximal contiguous subsequence in the
original order (a dropWhile of the too-early prefix followed by a takeWhile
of the in-range run); concretely, on samples at instants 10, 20, 30 the
range 10..20 keeps the samples at 10 and 20 and the range 11..19 keeps
nothing. -/
theorem claim4_filter_closed_interval :
    (∀ (α : Type) (samples : List (Sample α)) (s e : Int),
        samples.Pairwise (fun a b => a.timestamp ≤ b.timestamp) →
          filter_data_by_datetime_range samples s e =
            (samples.dropWhile fun r => decide (r.timestamp < s)).takeWhile
              (fun r => decide (r.timestamp ≤ e)) ∧
          (∀ r ∈ filter_data_by_datetime_range samples s e,
            r ∈ samples ∧ s ≤ r.timestamp ∧ r.timestamp ≤ e) ∧
          (∀ r ∈ samples, s ≤ r.timestamp → r.timestamp ≤ e →
            r ∈ filter_data_by_datetime_range samples s e)) ∧
      filter_data_by_datetime_range
          [(⟨10, "00:00:10 01/01/1970", (1 : Int)⟩ : Sample Int),
            ⟨20, "00:00:20 01/01/1970", 2⟩, ⟨30, "00:00:30 01/01/1970", 3⟩]
          10 20 =
        [⟨10, "00:00:10 01/01/1970", 1⟩, ⟨20, "00:00:20 01/01/1970", 2⟩] ∧
      filter_data_by_datetime_range
          [(⟨10, "00:00:10 01/01/1970", (1 : Int)⟩ : Sample Int),
            ⟨20, "00:00:20 01/01/1970", 2⟩, ⟨30, "00:00:30 01/01/1970", 3⟩]
          11 19 = [] := by
  refine ⟨fun α samples s e hs =>
    ⟨filter_range_eq_drop_take samples s e hs, ?_, ?_⟩, by decide, by decide⟩
  · intro r hr
    simp only [filter_data_by_datetime_range] at hr
    rcases List.mem_filter.mp hr with ⟨hmem, hpred⟩
    simp only [Bool.and_eq_true, decide_eq_true_eq] at hpred
    exact ⟨hmem, hpred.1, hpred.2⟩
  · intro r hr h1 h2
    simp only [filter_data_by_datetime_range]
    exact List.mem_filter.mpr ⟨hr, by simp [h1, h2]⟩

theorem claim4_filter_closed_interval_witness :
    filter_data_by_datetime_range
        [(⟨10, "00:00:10 01/01/1970", (1 : Int)⟩ : Sample Int),
          ⟨20, "00:00:20 01/01/1970", 2⟩, ⟨30, "00:00:30 01/01/1970", 3⟩] 5 25 =
      ([(⟨10, "00:00:10 01/01/1970", (1 : Int)⟩ : Sample Int),
          ⟨20, "00:00:20 01/01/1970", 2⟩,
          ⟨30, "00:00:30 01/01/1970", 3⟩].dropWhile fun r =>
            decide (r.timestamp < 5)).takeWhile
        (fun r => decide (r.timestamp ≤ 25)) :=
  (claim4_filter_closed_interval.1 Int
    [⟨10, "00:00:10 01/01/1970", 1⟩, ⟨20, "00:00:20 01/01/1970", 2⟩,
      ⟨30, "00:00:30 01/01/1970", 3⟩] 5 25 (by decide)).1

/-- C5: an inverted range, start after end, yields the empty sequence from
filter_data_by_datetime_range for every sample sequence, and no error is
raised (the function is total). -/
theorem claim5_inverted_range {α : Type} (samples : List (Sample α))
    (s e : Int) (h : e < s) :
    filter_data_by_datetime_range samples s e = [] := by
  simp only [filter_data_by_datetime_range]
  exact List.filter_eq_nil_iff.mpr fun r _ => by
    simp only [Bool.and_eq_true, decide_eq_true_eq, not_and]
    exact fun hs he => absurd (le_trans hs he) (not_le_of_lt h)

theorem claim5_inverted_range_witness :
    filter_data_by_datetime_range
        [(⟨10, "00:00:10 01/01/1970", (1 : Int)⟩ : Sample Int),
          ⟨20, "00:00:20 01/01/1970", 2⟩, ⟨30, "00:00:30 01/01/1970", 3⟩]
        30 10 = [] :=
  claim5_inverted_range
    [⟨10, "00:00:10 01/01/1970", 1⟩, ⟨20, "00:00:20 01/01/1970", 2⟩,
      ⟨30, "00:00:30 01/01/1970", 3⟩] 30 10 (by decide)

/-- C6: every Sample produced by normalize carries as FormattedTime exactly
the rendering of its instant in the fixed UTC format HH:MM:SS DD/MM/YYYY,
and for the timestamp-key "0" that rendering is 00:00:00 01/01/1970. -/
theorem claim6_display_text {α : Type} (raw : List (String × α))
    (out : List (Sample α)) (s : Sample α) (h : normalize raw = .ok out)
    (hs : s ∈ out) :
    format_timestamp s.timestamp = some s.formattedTime ∧
      format_timestamp 0 = some "00:00:00 01/01/1970" ∧
      normalize [("0", (21 : Int))] =
        .ok [⟨0, "00:00:00 01/01/1970", 21⟩] := by
  rcases normalize_ok_cases raw out h with ⟨parsed, _, hbr⟩
  exact ⟨buildRows_ok_formatted _ _ hbr s hs, by decide, by decide⟩

theorem claim6_display_text_witness :
    format_timestamp
        (⟨0, "00:00:00 01/01/1970", (21 : Int)⟩ : Sample Int).timestamp =
      some (⟨0, "00:00:00 01/01/1970", (21 : Int)⟩ : Sample Int).formattedTime ∧
      format_timestamp 0 = some "00:00:00 01/01/1970" ∧
      normalize [("0", (21 : Int))] =
        .ok [⟨0, "00:00:00 01/01/1970", 21⟩] :=
  claim6_display_text [("0", (21 : Int))]
    [⟨0, "00:00:00 01/01/1970", 21⟩] ⟨0, "00:00:00 01/01/1970", 21⟩
    (by decide) (by decide)

/-- C7 counterexample: the key "99999999999999" is integer-parseable, but
its instant lies far beyond year 9999, so the program raises and preserves
no entry at all — entry preservation does not hold for every
integer-parseable mapping regardless of size. -/
theorem claim7_out_of_range_counterexample :
    parseInt "99999999999999" = some 99999999999999 ∧
      normalize [("99999999999999", (1 : Int))] =
        .error .timestampOutOfRange :=
  ⟨by decide, by decide⟩

/-- C7 (amended): for every input mapping whose keys parse to instants
datetime can represent (years 1..9999), normalize preserves every input
entry exactly once, with no filtering, deduplication or sampling: the
output has one Sample per input entry and the multiset of its (instant,
value) pairs is exactly the multiset of (parsed key, unchanged value)
pairs of the input. -/
theorem claim7_entries_preserved {α : Type} (raw : List (String × α))
    (hb : ∀ kv ∈ raw, ((parseInt kv.1).bind format_timestamp).isSome) :
    ∃ out, normalize raw = .ok out ∧ out.length = raw.length ∧
      (out.map fun s => (s.timestamp, s.temperature)).Perm
        (raw.filterMap fun kv => (parseInt kv.1).map fun i => (i, kv.2)) := by
  have hn := normalize_eq_of_ok raw hb
  exact ⟨_, hn, normalize_ok_length raw _ hn,
    normalize_ok_entries_perm raw _ _
      (parseEntries_ok_of_parse raw (parse_isSome_of_bind raw hb)) hn⟩

theorem claim7_entries_preserved_witness :
    ∃ out, normalize [("2", (50 : Int)), ("0", 50), ("1", 49)] = .ok out ∧
      out.length = ([("2", (50 : Int)), ("0", 50), ("1", 49)]).length ∧
      (out.map fun s => (s.timestamp, s.temperature)).Perm
        ([("2", (50 : Int)), ("0", 50), ("1", 49)].filterMap fun kv =>
          (parseInt kv.1).map fun i => (i, kv.2)) :=
  claim7_entries_preserved [("2", (50 : Int)), ("0", 50), ("1", 49)]
    (by decide)

/-- C9 counterexample: the keys "0" and "300000000000" parse to distinct
integers, yet normalize raises on the out-of-range instant instead of
producing any (strictly increasing) sequence. -/
theorem claim9_out_of_range_counterexample :
    parseInt "300000000000" = some 300000000000 ∧
      (300000000000 : Int) ≠ 0 ∧
      normalize [("0", (1 : Int)), ("300000000000", 2)] =
        .error .timestampOutOfRange :=
  ⟨by decide, by decide, by decide⟩

/-- C8: for every nonempty normalized sequence, the summary shown by the UI
shell is taken from the last row, whose instant is maximal over the whole
sequence, and the displayed value and display text come from that same
row. -/
theorem claim8_latest_is_max {α : Type} (raw : List (String × α))
    (out : List (Sample α)) (h : normalize raw = .ok out) (hne : out ≠ []) :
    ∃ last, out.getLast? = some last ∧
      latest_display (some out) = some (last.temperature, last.formattedTime) ∧
      ∀ s ∈ out, s.timestamp ≤ last.timestamp := by
  have hsorted := normalize_ok_pairwise raw out h
  have hlast := List.getLast?_eq_getLast out hne
  exact ⟨out.getLast hne, hlast, by simp [latest_display, hlast],
    pairwise_le_getLast out _ hsorted hlast⟩

theorem claim8_latest_is_max_witness :
    ∃ last,
      ([(⟨9, "00:00:09 01/01/1970", (1 : Int)⟩ : Sample Int),
        ⟨10, "00:00:10 01/01/1970", 2⟩].getLast?) = some last ∧
      latest_display
          (some [(⟨9, "00:00:09 01/01/1970", (1 : Int)⟩ : Sample Int),
            ⟨10, "00:00:10 01/01/1970", 2⟩]) =
        some (last.temperature, last.formattedTime) ∧
      ∀ s ∈ [(⟨9, "00:00:09 01/01/1970", (1 : Int)⟩ : Sample Int),
        ⟨10, "00:00:10 01/01/1970", 2⟩], s.timestamp ≤ last.timestamp :=
  claim8_latest_is_max [("10", (2 : Int)), ("9", 1)]
    [⟨9, "00:00:09 01/01/1970", 1⟩, ⟨10, "00:00:10 01/01/1970", 2⟩]
    (by decide) (by decide)

/-- C9 (amended): when the keys parse to pairwise-distinct integers whose
instants datetime can represent (years 1..9999), the normalized sequence
is strictly increasing in instant, not merely non-decreasing, and
filter_data_by_datetime_range preserves the strict ordering on its
output. -/
theorem claim9_strictly_increasing {α : Type} (raw : List (String × α))
    (hb : ∀ kv ∈ raw, ((parseInt kv.1).bind format_timestamp).isSome)
    (hd : (raw.filterMap fun kv => parseInt kv.1).Nodup) :
    ∃ out, normalize raw = .ok out ∧
      out.Pairwise (fun a b => a.timestamp < b.timestamp) ∧
      ∀ s e, (filter_data_by_datetime_range out s e).Pairwise
        (fun a b => a.timestamp < b.timestamp) := by
  have hn := normalize_eq_of_ok raw hb
  rw [← parsed_map_fst raw] at hd
  have hfst : ((sortEntries (raw.filterMap fun kv =>
      (parseInt kv.1).map fun i => (i, kv.2))).map Prod.fst).Nodup :=
    (((sortEntries_perm _).map Prod.fst).symm).nodup hd
  rw [List.Nodup, List.pairwise_map] at hfst
  have hlt : (sortEntries (raw.filterMap fun kv =>
      (parseInt kv.1).map fun i => (i, kv.2))).Pairwise
      (fun a b => a.1 < b.1) :=
    ((sortEntries_pairwise _).and hfst).imp fun hab =>
      lt_of_le_of_ne hab.1 hab.2
  have hout : ((sortEntries (raw.filterMap fun kv =>
      (parseInt kv.1).map fun i => (i, kv.2))).map fun p =>
        ({ timestamp := p.1,
           formattedTime := (format_timestamp p.1).getD "",
           temperature := p.2 } : Sample α)).Pairwise
      (fun a b => a.timestamp < b.timestamp) :=
    List.pairwise_map.mpr hlt
  exact ⟨_, hn, hout, fun s e =>
    List.Pairwise.sublist (List.filter_sublist _) hout⟩

theorem claim9_strictly_increasing_witness :
    ∃ out, normalize [("2", (5 : Int)), ("1", 6)] = .ok out ∧
      out.Pairwise (fun a b => a.timestamp < b.timestamp) ∧
      ∀ s e, (filter_data_by_datetime_range out s e).Pairwise
        (fun a b => a.timestamp < b.timestamp) :=
  claim9_strictly_increasing [("2", (5 : Int)), ("1", 6)] (by decide)
    (by decide)

/-- C10 counterexample: the key "-99999999999999" parses as an integer,
yet normalization raises (`datetime.fromtimestamp` rejects years below 1),
refuting the assertion that normalization succeeds for every mapping whose
keys each parse as an integer. -/
theorem claim10_out_of_range_counterexample :
    parseInt "-99999999999999" = some (-99999999999999) ∧
      normalize [("-99999999999999", (1 : Int))] =
        .error .timestampOutOfRange :=
  ⟨by decide, by decide⟩

/-- C10 (amended): normalize does not enforce the non-negativity of
timestamp-keys as such: any mapping whose keys parse as integers with
instants datetime can represent (years 1..9999, so epoch seconds down to
-62135596800), negative ones included, normalizes without error; no sample
with negative instant ever follows one with non-negative instant, and a
negative in-range instant renders as a pre-epoch UTC time, as the concrete
run with keys -1 and 0 shows. Keys parseable as integers but outside that
range make the program raise instead. -/
theorem claim10_negative_keys {α : Type} (raw : List (String × α))
    (hb : ∀ kv ∈ raw, ((parseInt kv.1).bind format_timestamp).isSome) :
    (∃ out, normalize raw = .ok out ∧
        out.Pairwise fun a b => 0 ≤ a.timestamp → 0 ≤ b.timestamp) ∧
      parseInt "-1" = some (-1) ∧
      format_timestamp (-1) = some "23:59:59 31/12/1969" ∧
      normalize [("-1", (3 : Int)), ("0", 7)] =
        .ok [⟨-1, "23:59:59 31/12/1969", 3⟩, ⟨0, "00:00:00 01/01/1970", 7⟩] := by
  have hn := normalize_eq_of_ok raw hb
  refine ⟨⟨_, hn, ?_⟩, by decide, by decide, by decide⟩
  exact (normalize_ok_pairwise raw _ hn).imp fun hab h0a => le_trans h0a hab

theorem claim10_negative_keys_witness :
    (∃ out, normalize [("0", (7 : Int)), ("-1", 3)] = .ok out ∧
        out.Pairwise fun a b => 0 ≤ a.timestamp → 0 ≤ b.timestamp) ∧
      parseInt "-1" = some (-1) ∧
      format_timestamp (-1) = some "23:59:59 31/12/1969" ∧
      normalize [("-1", (3 : Int)), ("0", 7)] =
        .ok [⟨-1, "23:59:59 31/12/1969", 3⟩, ⟨0, "00:00:00 01/01/1970", 7⟩] :=
  claim10_negative_keys [("0", (7 : Int)), ("-1", 3)] (by decide)

end NanoTemp
